import Mathlib

/-!
Verification of the EDR position-query pipeline of `xpublish-edr`.

This file is a shallow embedding of `src/xpublish_edr/plugin.py`: the
`cache_key_from_request` helper and the `get_position` request handler,
together with models of the dataset-selection primitives the handler calls
on the labeled-dataset engine (`ds.cf.sel`, `ds.cf[...]`, `ds.sel`).

Modelling conventions:
- coordinate labels are integers (`Int`); string-valued constraints from the
  query string are parsed with an executable integer parser standing in for
  the engine's label parsing, and an unparseable label is a lookup failure;
- Python exceptions are explicit: `LookupErr` models the `KeyError` /
  `ValueError` raised by the dataset engine, and `PyErr` models what escapes
  the handler — either a deliberate `HTTPException (status, detail)` or an
  exception the handler does not catch (`uncaught`);
- wall time is abstracted by two duration parameters: `selDur`, the time the
  body of the `with CostTimer() as ct:` block takes, and `fmtDur`, the time
  the `await asyncio.to_thread(format_fn, ds)` line takes.  In the source the
  `to_thread` call sits after the `with` block, so `ct.time` is `selDur`.
-/

namespace EDR

/-- Python's `value.split(sep)` for a one-character separator, on the
character list of a string (e.g. `split '/' "a//b" = [['a'],[],['b']]`). -/
def splitChars (sep : Char) : List Char → List (List Char)
  | [] => [[]]
  | c :: rest =>
    match splitChars sep rest with
    | [] => [[c]]
    | h :: t => if c = sep then [] :: h :: t else (c :: h) :: t

/-- Embedding of Python `value.split(sep)` for a one-character separator,
as used by `plugin.py` with `"/"` and `","`. -/
def pySplit (sep : Char) (s : String) : List String :=
  (splitChars sep s.data).map String.mk

/-- Digit-list parser used by `parseIntStr`. -/
def parseDigits : List Char → Option Nat
  | [] => none
  | cs => go cs 0
where
  go : List Char → Nat → Option Nat
    | [], acc => some acc
    | c :: rest, acc => if c.isDigit then go rest (acc * 10 + (c.toNat - 48)) else none

/-- Executable integer parser: stands in for the label parsing the dataset
engine performs when a raw query-string value is used as a coordinate
label.  A value that does not parse cannot resolve in the index. -/
def parseIntStr (s : String) : Option Int :=
  match s.data with
  | '-' :: rest => (parseDigits rest).map (fun n => -(n : Int))
  | cs => (parseDigits cs).map (fun n => (n : Int))

/-- A labeled dataset: optional CF axes X/Y/Z/T (each a list of coordinate
labels), arbitrary named extra dimensions, and named data variables.  This
is the model of the `xarray.Dataset` handle `get_position` receives. -/
structure Dataset where
  xAxis : Option (List Int)
  yAxis : Option (List Int)
  zAxis : Option (List Int)
  tAxis : Option (List Int)
  dims : List (String × List Int)
  vars : List String
deriving DecidableEq, Repr

/-- The `EDRQuery` value object (its fields as used by `get_position`):
`point` (x, y), optional `z`, `datetime`, `parameters`, `format`. -/
structure EDRQuery where
  point : Int × Int
  z : Option Int
  datetime : Option String
  parameters : Option String
  format : Option String
deriving DecidableEq, Repr

/-- The incoming request: an identity (Python object identity, which is what
a `fastapi.Request` contributes to a tuple key) and its query parameters in
order of appearance. -/
structure Request where
  rid : Nat
  query_params : List (String × String)
deriving DecidableEq, Repr

/-- A formatted response: body, declared content length (the
`content-length` header) and media type. -/
structure Response where
  body : String
  contentLength : Nat
  mediaType : String
deriving DecidableEq, Repr

/-- An error raised by the dataset engine during a lookup:
`KeyError` (label or key not found) or `ValueError` (malformed value). -/
inductive LookupErr where
  | keyError (key : String)
  | valueError (msg : String)
deriving DecidableEq, Repr

/-- What escapes the handler on failure: a deliberate
`HTTPException(status_code, detail)`, or an engine exception the handler
does not catch (which the surrounding framework turns into a server
error, not a client error). -/
inductive PyErr where
  | http (status : Nat) (detail : String)
  | uncaught (msg : String)
deriving DecidableEq, Repr

/-- `true` exactly for a client-facing `HTTPException` with status 404. -/
def PyErr.is404 : PyErr → Bool
  | .http 404 _ => true
  | _ => false

/-- Nearest-match lookup: the label of `xs` closest to `target`
(first minimizer), `none` on an empty axis. -/
def nearestIn (xs : List Int) (target : Int) : Option Int :=
  match xs with
  | [] => none
  | x :: rest =>
    some (rest.foldl (fun b a => if (a - target).natAbs < (b - target).natAbs then a else b) x)

/-- `dataset.cf.sel(X=x, Y=y, method="nearest")`: resolve both spatial axes
by nearest match; raise `KeyError` if either axis is missing or empty. -/
def cfSelXY (ds : Dataset) (x y : Int) : Except LookupErr Dataset :=
  match ds.xAxis, ds.yAxis with
  | some xs, some ys =>
    match nearestIn xs x, nearestIn ys y with
    | some xv, some yv => .ok { ds with xAxis := some [xv], yAxis := some [yv] }
    | _, _ => .error (.keyError "X")
  | _, _ => .error (.keyError "X")

/-- `dataset.cf.sel(Z=z, method="nearest")`: nearest match on the vertical
axis; `KeyError` if the dataset has no (nonempty) Z axis. -/
def cfSelZ (ds : Dataset) (z : Int) : Except LookupErr Dataset :=
  match ds.zAxis with
  | none => .error (.keyError "Z")
  | some zs =>
    match nearestIn zs z with
    | none => .error (.keyError "Z")
    | some zv => .ok { ds with zAxis := some [zv] }

/-- `ds.cf.sel(T=s, method="nearest")`: parse the instant (`ValueError` on
failure, as an unparseable date raises in the engine), then nearest match
on the temporal axis (`KeyError` if there is none). -/
def cfSelTNearest (ds : Dataset) (s : String) : Except LookupErr Dataset :=
  match ds.tAxis with
  | none => .error (.keyError "T")
  | some ts =>
    match parseIntStr s with
    | none => .error (.valueError ("could not parse " ++ s))
    | some t =>
      match nearestIn ts t with
      | none => .error (.keyError "T")
      | some tv => .ok { ds with tAxis := some [tv] }

/-- `ds.cf.sel(T=slice(a, b))`: parse both endpoints (`ValueError` on
failure) and keep exactly the labels in the inclusive range `[lo, hi]`. -/
def cfSelTSlice (ds : Dataset) (a b : String) : Except LookupErr Dataset :=
  match ds.tAxis with
  | none => .error (.keyError "T")
  | some ts =>
    match parseIntStr a, parseIntStr b with
    | some lo, some hi =>
      .ok { ds with tAxis := some (ts.filter (fun v => lo ≤ v && v ≤ hi)) }
    | _, _ => .error (.valueError ("could not parse " ++ a ++ "/" ++ b))

/-- `ds.cf[names]`: reduce the dataset to exactly the requested variables;
`KeyError` naming the first requested variable that is absent. -/
def cfGetVars (ds : Dataset) (names : List String) : Except LookupErr Dataset :=
  match names.find? (fun n => !ds.vars.contains n) with
  | some missing => .error (.keyError missing)
  | none => .ok { ds with vars := names }

/-- A value passed to the combined `ds.sel(query_params, method=method)`
call: either the raw single-token string left in the dict by `continue`, or
the `slice(lo, hi)` stored for a two-token `lo/hi` value. -/
inductive SelArg where
  | scalar (v : String)
  | range (lo hi : String)
deriving DecidableEq, Repr

/-- One dimension's lookup inside `ds.sel`: a scalar resolves by nearest
match when `method` is `some "nearest"` and must resolve exactly when
`method` is `none`; a slice keeps the inclusive range regardless of
`method`.  Unresolvable or unparseable labels raise `KeyError`. -/
def selDim (xs : List Int) (arg : SelArg) (method : Option String) : Except LookupErr (List Int) :=
  match arg with
  | .scalar v =>
    match parseIntStr v with
    | none => .error (.keyError v)
    | some i =>
      match method with
      | some _ =>
        match nearestIn xs i with
        | none => .error (.keyError v)
        | some w => .ok [w]
      | none => if xs.contains i then .ok [i] else .error (.keyError v)
  | .range a b =>
    match parseIntStr a, parseIntStr b with
    | some lo, some hi => .ok (xs.filter (fun u => lo ≤ u && u ≤ hi))
    | _, _ => .error (.keyError (a ++ "/" ++ b))

/-- Replace the labels of dimension `k`. -/
def setDim (dims : List (String × List Int)) (k : String) (v : List Int) : List (String × List Int) :=
  dims.map (fun p => if p.1 = k then (k, v) else p)

/-- The single combined `ds.sel(query_params, method=method)` call: apply
every (dimension, value) pair with the one shared `method`; `KeyError` on a
dimension the dataset does not have or a value that does not resolve. -/
def selExtra (ds : Dataset) (args : List (String × SelArg)) (method : Option String) : Except LookupErr Dataset :=
  match args with
  | [] => .ok ds
  | (k, a) :: rest =>
    match ds.dims.find? (fun p => p.1 = k) with
    | none => .error (.keyError k)
    | some kv =>
      match selDim kv.2 a method with
      | .error e => .error e
      | .ok v => selExtra { ds with dims := setDim ds.dims k v } rest method

/-- Python `dict(pairs)`: position of a key is its first occurrence, its
value is the last one (`dict(request.query_params)` in the handler). -/
def dictInsert (m : List (String × String)) (k v : String) : List (String × String) :=
  if m.any (fun p => p.1 = k) then m.map (fun p => if p.1 = k then (k, v) else p)
  else m ++ [(k, v)]

/-- Build the Python dict from the ordered query parameters. -/
def dictOfPairs (l : List (String × String)) : List (String × String) :=
  l.foldl (fun m p => dictInsert m p.1 p.2) []

/-- Modelled from the spec: `edr_query_params` (defined in the repository's
`query` module, which is not under `src/`) — the reserved query-parameter
names claimed by the `EDRQuery` object itself; every other query parameter
is an extra dimension-selection parameter. -/
def edr_query_params : List String := ["point", "z", "datetime", "parameters", "format"]

/-- The extra (non-reserved) query parameters of a request:
`dict(request.query_params)` with the reserved keys deleted. -/
def extraQueryParams (request : Request) : List (String × String) :=
  (dictOfPairs request.query_params).filter (fun p => !edr_query_params.contains p.1)

/-- The loop over the extra query parameters: a single-token value is left
as-is (`continue`), a two-token `lo/hi` value becomes `slice(lo, hi)` and
flips the shared `method` from `"nearest"` to `None`, and a value with more
than two tokens raises `HTTPException(404, "Too many values for selecting
" + key)` at the first offending key. -/
def processExtraParams : List (String × String) → Except PyErr (List (String × SelArg) × Option String)
  | [] => .ok ([], some "nearest")
  | (k, v) :: rest =>
    match pySplit '/' v with
    | [_] =>
      match processExtraParams rest with
      | .error e => .error e
      | .ok (args, m) => .ok ((k, .scalar v) :: args, m)
    | [a, b] =>
      match processExtraParams rest with
      | .error e => .error e
      | .ok (args, _) => .ok ((k, .range a b) :: args, none)
    | _ => .error (.http 404 ("Too many values for selecting " ++ k))

/-- How an engine error escapes the un-guarded selection calls (the Z
selection, the extra-dimension `ds.sel`, and any non-`ValueError` from the
T selection): the handler has no `except` for it, so it propagates. -/
def uncaughtOf : LookupErr → PyErr
  | .keyError k => .uncaught ("KeyError: " ++ k)
  | .valueError m => .uncaught ("ValueError: " ++ m)

/-- The `try ... except ValueError` around the datetime selection:
`ValueError` is rewrapped as `HTTPException(404, f"Invalid datetime
({e})")`, anything else propagates uncaught. -/
def mapTimeLookup : Except LookupErr Dataset → Except PyErr Dataset
  | .ok d => .ok d
  | .error (.valueError m) => .error (.http 404 ("Invalid datetime (" ++ m ++ ")"))
  | .error (.keyError k) => .error (uncaughtOf (.keyError k))

/-- The datetime block of `get_position`: split on `"/"`; one token →
nearest match on T, two tokens → inclusive slice on T (`ValueError`
rewrapped in both cases), more → `HTTPException(404, "Invalid datetimes
submitted")`. -/
def selectDatetimeStep (ds : Dataset) (s : String) : Except PyErr Dataset :=
  match pySplit '/' s with
  | [d0] => mapTimeLookup (cfSelTNearest ds d0)
  | [d0, d1] => mapTimeLookup (cfSelTSlice ds d0 d1)
  | _ => .error (.http 404 "Invalid datetimes submitted")

/-- The parameters block: `ds.cf[query.parameters.split(",")]`, with
`KeyError` rewrapped as `HTTPException(404, f"Invalid variable: {e}")`
(the `KeyError` prints its key in quotes). -/
def selectParamsStep (ds : Dataset) (s : String) : Except PyErr Dataset :=
  match cfGetVars ds (pySplit ',' s) with
  | .ok d => .ok d
  | .error (.keyError k) => .error (.http 404 ("Invalid variable: '" ++ k ++ "'"))
  | .error (.valueError m) => .error (uncaughtOf (.valueError m))

/-- The extra-dimension block: process the non-reserved query parameters,
then issue the single combined `ds.sel(query_params, method=method)` call;
engine errors from that call are not caught. -/
def selectExtraStep (ds : Dataset) (request : Request) : Except PyErr Dataset :=
  match processExtraParams (extraQueryParams request) with
  | .error e => .error e
  | .ok (args, method) =>
    match selExtra ds args method with
    | .ok d => .ok d
    | .error e => .error (uncaughtOf e)

/-- The name → formatter registry populated by `position_formats()`
(entry-point discovery is external; the handler only consumes the
mapping). -/
def FormatRegistry : Type := List (String × (Dataset → Response))

/-- Deterministic structural serialization of a list of labels. -/
def encodeInts (xs : List Int) : String :=
  String.intercalate "," (xs.map toString)

/-- Deterministic structural serialization of an optional axis. -/
def encodeOptInts : Option (List Int) → String
  | none => "-"
  | some xs => "[" ++ encodeInts xs ++ "]"

/-- Deterministic structural serialization of the extra dimensions. -/
def encodeDims (dims : List (String × List Int)) : String :=
  String.intercalate ";" (dims.map (fun p => p.1 ++ "=" ++ encodeInts p.2))

/-- Deterministic structural serialization of a dataset: a pure function of
the dataset's content. -/
def encodeDataset (ds : Dataset) : String :=
  encodeOptInts ds.xAxis ++ "|" ++ encodeOptInts ds.yAxis ++ "|" ++
    encodeOptInts ds.zAxis ++ "|" ++ encodeOptInts ds.tAxis ++ "|" ++
    encodeDims ds.dims ++ "|" ++ String.intercalate "," ds.vars

/-- `dask.base.tokenize(dataset)`: a deterministic structural fingerprint of
the dataset's content (not object identity). -/
def dask_base_tokenize (ds : Dataset) : String := encodeDataset ds

/-- Modelled from the spec: `to_cf_covjson` (defined in the repository's
`formats/to_covjson.py`, which is not under `src/`) — the fixed default
CoverageJSON encoder: a deterministic serialization of the reduced dataset
with an accurate declared content length. -/
def to_cf_covjson (ds : Dataset) : Response :=
  let body := "CoverageJSON " ++ encodeDataset ds
  { body := body, contentLength := body.utf8ByteSize, mediaType := "application/vnd.cov+json" }

/-- The format block of `get_position`: a truthy `query.format` is looked
up in the registry (absence is `HTTPException(404, ...)` telling the caller
to `Get ./formats` for valid formats); otherwise the default formatter
`to_cf_covjson` is chosen. -/
def resolveFormat (formats : FormatRegistry) (fopt : Option String) : Except PyErr (Dataset → Response) :=
  match fopt with
  | some s =>
    if s = "" then .ok to_cf_covjson
    else
      match formats.find? (fun p => p.1 = s) with
      | some p => .ok p.2
      | none =>
        .error (.http 404 (s ++ " is not a valid format for EDR position queries. " ++
          "Get `./formats` for valid formats"))
  | none => .ok to_cf_covjson

/-- An optional pipeline step guarded by Python truthiness of an optional
string field (`if query.datetime:` / `if query.parameters:`): skipped when
the field is `None` or empty. -/
def optStep (ds : Dataset) (v : Option String) (f : Dataset → String → Except PyErr Dataset) :
    Except PyErr Dataset :=
  match v with
  | some s => if s = "" then .ok ds else f ds s
  | none => .ok ds

/-- The pipeline of `get_position` after the spatial/vertical selection:
datetime block, then parameters block, then extra-dimension block, then
format resolution; each step receives the dataset produced by the previous
one, and the first error aborts. -/
def pipelineAfterVertical (formats : FormatRegistry) (query : EDRQuery) (request : Request)
    (ds0 : Dataset) : Except PyErr (Dataset × (Dataset → Response)) :=
  match optStep ds0 query.datetime selectDatetimeStep with
  | .error e => .error e
  | .ok ds1 =>
    match optStep ds1 query.parameters selectParamsStep with
    | .error e => .error e
    | .ok ds2 =>
      match selectExtraStep ds2 request with
      | .error e => .error e
      | .ok ds3 =>
        match resolveFormat formats query.format with
        | .error e => .error e
        | .ok fmtFn => .ok (ds3, fmtFn)

/-- The full selection path of `get_position` (the body of the
`with CostTimer()` block): the spatial nearest selection (its `KeyError`
rewrapped as the CF-convention 404), then — when `query.z` is truthy — the
vertical nearest selection issued against `dataset`, the ORIGINAL handle,
not the spatially-reduced `ds` (and not guarded by any `except`), then the
rest of the pipeline. -/
def selectPipeline (formats : FormatRegistry) (query : EDRQuery) (request : Request)
    (dataset : Dataset) : Except PyErr (Dataset × (Dataset → Response)) :=
  match cfSelXY dataset query.point.1 query.point.2 with
  | .error (.keyError _) =>
    .error (.http 404 "Dataset does not have CF Convention compliant metadata")
  | .error (.valueError m) => .error (uncaughtOf (.valueError m))
  | .ok ds =>
    match query.z with
    | some z =>
      if z = 0 then pipelineAfterVertical formats query request ds
      else
        match cfSelZ dataset z with
        | .error e => .error (uncaughtOf e)
        | .ok dz => pipelineAfterVertical formats query request dz
    | none => pipelineAfterVertical formats query request ds

/-- A cache key: `("position", request, query, dask.base.tokenize(dataset))`
— route name, request identity, the query value, the dataset fingerprint. -/
structure CacheKey where
  route : String
  requestId : Nat
  query : EDRQuery
  datasetToken : String
deriving DecidableEq, Repr

/-- `cache_key_from_request(route, request, query, dataset)`. -/
def cache_key_from_request (route : String) (request : Request) (query : EDRQuery)
    (dataset : Dataset) : CacheKey :=
  { route := route, requestId := request.rid, query := query,
    datasetToken := dask_base_tokenize dataset }

/-- A stored cache entry: the response plus the recorded cost and size
handed to `cache.put`. -/
structure CacheEntry where
  response : Response
  cost : Nat
  size : Nat
deriving DecidableEq, Repr

/-- The external `cachey` cache, as the handler observes it: an association
of keys to entries. -/
def Cache : Type := List (CacheKey × CacheEntry)

/-- Find the entry stored under a key. -/
def Cache.lookup : Cache → CacheKey → Option CacheEntry
  | [], _ => none
  | (k, e) :: rest, key => if k = key then some e else Cache.lookup rest key

/-- `cache.get(key)`: the stored response, if any. -/
def Cache.get (c : Cache) (k : CacheKey) : Option Response :=
  (Cache.lookup c k).map CacheEntry.response

/-- `cache.put(key, response, cost, size)`. -/
def Cache.put (c : Cache) (k : CacheKey) (r : Response) (cost size : Nat) : Cache :=
  (k, ⟨r, cost, size⟩) :: c

/-- The observable outcome of one `get_position` call: the returned
response or escaped error, the cache afterwards, how many times a formatter
was invoked, and the handler's total elapsed wall time. -/
structure RunResult where
  result : Except PyErr Response
  cache : Cache
  fmtCalls : Nat
  elapsed : Nat

/-- The `get_position` handler.  `selDur` is the wall time the body of the
`with CostTimer() as ct:` block takes and `fmtDur` the wall time of the
`await asyncio.to_thread(format_fn, ds)` line, which in the source sits
after that block — so `ct.time = selDur`.  On a hit the stored response is
returned as-is; on a miss the pipeline runs, the formatter is invoked once,
and `cache.put(cache_key, response, ct.time,
int(response.headers["content-length"]))` stores the result. -/
def get_position (formats : FormatRegistry) (selDur fmtDur : Nat) (request : Request)
    (query : EDRQuery) (dataset : Dataset) (cache : Cache) : RunResult :=
  let key := cache_key_from_request "position" request query dataset
  match Cache.get cache key with
  | some r => { result := .ok r, cache := cache, fmtCalls := 0, elapsed := 0 }
  | none =>
    match selectPipeline formats query request dataset with
    | .error e => { result := .error e, cache := cache, fmtCalls := 0, elapsed := selDur }
    | .ok (ds, fmtFn) =>
      let response := fmtFn ds
      { result := .ok response
        cache := Cache.put cache key response selDur response.contentLength
        fmtCalls := 1
        elapsed := selDur + fmtDur }

deriving instance DecidableEq for Except

/-! Concrete fixtures used to exercise the embedding. -/

/-- A small dataset: one-point spatial grid, vertical levels 5 and 9, times
0/10/20, extra dimensions `level` (labels 2, 4 — note: no 3) and `depth`
(labels 10, 20), variables `temp` and `salinity`. -/
def dsFix : Dataset :=
  { xAxis := some [0], yAxis := some [0], zAxis := some [5, 9], tAxis := some [0, 10, 20]
    dims := [("level", [2, 4]), ("depth", [10, 20])], vars := ["temp", "salinity"] }

/-- A query with only the required point. -/
def qBasic : EDRQuery :=
  { point := (0, 0), z := none, datetime := none, parameters := none, format := none }

/-- A request with no query parameters. -/
def req0 : Request := { rid := 0, query_params := [] }

/-- A request whose extra parameters are `level=3` (single token) and
`depth=10/20` (a range): the range flips the combined call to exact mode,
where `level=3` cannot resolve in `dsFix` (labels 2 and 4 only). -/
def reqLevel3 : Request := { rid := 1, query_params := [("level", "3"), ("depth", "10/20")] }

/-! Helper lemmas. -/

/-- `str.split(sep)` never returns an empty list. -/
theorem splitChars_ne_nil (sep : Char) (cs : List Char) : splitChars sep cs ≠ [] := by
  induction cs with
  | nil => simp [splitChars]
  | cons c rest ih =>
    simp only [splitChars]
    match h : splitChars sep rest with
    | [] => simp
    | h0 :: t0 =>
      by_cases hc : c = sep <;> simp [hc]

/-- `pySplit` never returns an empty list. -/
theorem pySplit_ne_nil (sep : Char) (s : String) : pySplit sep s ≠ [] := by
  simp [pySplit]
  exact splitChars_ne_nil sep s.data

/-- A string with a nonempty right append component is nonempty. -/
theorem append_ne_empty_of_right (s t : String) (h : t ≠ "") : s ++ t ≠ "" := by
  intro he
  apply h
  have hd := congrArg String.data he
  rw [String.data_append] at hd
  have := List.append_eq_nil.mp hd
  exact String.ext this.2

/-- A string with a nonempty left append component is nonempty. -/
theorem append_ne_empty_of_left (s t : String) (h : s ≠ "") : s ++ t ≠ "" := by
  intro he
  apply h
  have hd := congrArg String.data he
  rw [String.data_append] at hd
  have := List.append_eq_nil.mp hd
  exact String.ext this.1

/-- Looking up the key just stored returns the stored response. -/
theorem Cache.get_put (c : Cache) (k : CacheKey) (r : Response) (cost size : Nat) :
    Cache.get (Cache.put c k r cost size) k = some r := by
  simp [Cache.get, Cache.put, Cache.lookup]

/-- Every `HTTPException` produced by the datetime try/except has status
404 and a nonempty detail. -/
theorem mapTimeLookup_err (x : Except LookupErr Dataset) (st : Nat) (d : String)
    (h : mapTimeLookup x = .error (.http st d)) : st = 404 ∧ d ≠ "" := by
  match x with
  | .ok ds => simp [mapTimeLookup] at h
  | .error (.keyError k) => simp [mapTimeLookup, uncaughtOf] at h
  | .error (.valueError m) =>
    simp only [mapTimeLookup, Except.error.injEq, PyErr.http.injEq] at h
    refine ⟨h.1.symm, ?_⟩
    rw [← h.2]
    exact append_ne_empty_of_right _ _ (by decide)

/-- Every `HTTPException` from the datetime block has status 404 and a
nonempty detail. -/
theorem selectDatetimeStep_err (ds : Dataset) (s : String) (st : Nat) (d : String)
    (h : selectDatetimeStep ds s = .error (.http st d)) : st = 404 ∧ d ≠ "" := by
  unfold selectDatetimeStep at h
  match hsp : pySplit '/' s with
  | [] => exact absurd hsp (pySplit_ne_nil '/' s)
  | [d0] =>
    rw [hsp] at h
    exact mapTimeLookup_err _ _ _ h
  | [d0, d1] =>
    rw [hsp] at h
    exact mapTimeLookup_err _ _ _ h
  | d0 :: d1 :: d2 :: t =>
    rw [hsp] at h
    simp only [Except.error.injEq, PyErr.http.injEq] at h
    exact ⟨h.1.symm, by rw [← h.2]; decide⟩

/-- Every `HTTPException` from the parameters block has status 404 and a
nonempty detail. -/
theorem selectParamsStep_err (ds : Dataset) (s : String) (st : Nat) (d : String)
    (h : selectParamsStep ds s = .error (.http st d)) : st = 404 ∧ d ≠ "" := by
  unfold selectParamsStep at h
  match hg : cfGetVars ds (pySplit ',' s) with
  | .ok d' => rw [hg] at h; simp at h
  | .error (.valueError m) => rw [hg] at h; simp [uncaughtOf] at h
  | .error (.keyError k) =>
    rw [hg] at h
    simp only [Except.error.injEq, PyErr.http.injEq] at h
    refine ⟨h.1.symm, ?_⟩
    rw [← h.2]
    exact append_ne_empty_of_right _ _ (by decide)

/-- Every `HTTPException` from the extra-parameter loop has status 404 and
a nonempty detail. -/
theorem processExtraParams_err (qp : List (String × String)) (st : Nat) (d : String)
    (h : processExtraParams qp = .error (.http st d)) : st = 404 ∧ d ≠ "" := by
  induction qp with
  | nil => simp [processExtraParams] at h
  | cons p rest ih =>
    obtain ⟨k, v⟩ := p
    unfold processExtraParams at h
    match hsp : pySplit '/' v with
    | [] => exact absurd hsp (pySplit_ne_nil '/' v)
    | [x] =>
      rw [hsp] at h
      match hrest : processExtraParams rest with
      | .error e =>
        rw [hrest] at h
        simp only [Except.error.injEq] at h
        subst h
        exact ih hrest
      | .ok (args, m) => rw [hrest] at h; simp at h
    | [a, b] =>
      rw [hsp] at h
      match hrest : processExtraParams rest with
      | .error e =>
        rw [hrest] at h
        simp only [Except.error.injEq] at h
        subst h
        exact ih hrest
      | .ok (args, m) => rw [hrest] at h; simp at h
    | a :: b :: c :: t =>
      rw [hsp] at h
      simp only [Except.error.injEq, PyErr.http.injEq] at h
      refine ⟨h.1.symm, ?_⟩
      rw [← h.2]
      exact append_ne_empty_of_left _ _ (by decide)

/-- Every `HTTPException` from the extra-dimension block has status 404 and
a nonempty detail (engine errors from the combined `sel` go uncaught). -/
theorem selectExtraStep_err (ds : Dataset) (r : Request) (st : Nat) (d : String)
    (h : selectExtraStep ds r = .error (.http st d)) : st = 404 ∧ d ≠ "" := by
  unfold selectExtraStep at h
  match hp : processExtraParams (extraQueryParams r) with
  | .error e =>
    rw [hp] at h
    simp only [Except.error.injEq] at h
    subst h
    exact processExtraParams_err _ _ _ hp
  | .ok (args, m) =>
    simp only [hp] at h
    match hs : selExtra ds args m with
    | .ok d' => simp [hs] at h
    | .error (.keyError k) => simp [hs, uncaughtOf] at h
    | .error (.valueError msg) => simp [hs, uncaughtOf] at h

/-- Every `HTTPException` from format resolution has status 404 and a
nonempty detail. -/
theorem resolveFormat_err (fm : FormatRegistry) (fopt : Option String) (st : Nat) (d : String)
    (h : resolveFormat fm fopt = .error (.http st d)) : st = 404 ∧ d ≠ "" := by
  unfold resolveFormat at h
  match fopt with
  | none => simp at h
  | some s =>
    by_cases hs : s = ""
    · simp [hs] at h
    · simp only [if_neg hs] at h
      match hf : fm.find? (fun p => p.1 = s) with
      | some p => simp [hf] at h
      | none =>
        simp only [hf] at h
        simp only [Except.error.injEq, PyErr.http.injEq] at h
        refine ⟨h.1.symm, ?_⟩
        rw [← h.2]
        exact append_ne_empty_of_right _ _ (by decide)

/-- An error from an optional truthiness-guarded step comes from the step
itself, on a truthy (present and nonempty) field value. -/
theorem optStep_err (ds : Dataset) (v : Option String)
    (f : Dataset → String → Except PyErr Dataset) (e : PyErr)
    (h : optStep ds v f = .error e) : ∃ s, v = some s ∧ s ≠ "" ∧ f ds s = .error e := by
  match v with
  | none => simp [optStep] at h
  | some s =>
    by_cases hs : s = ""
    · simp [optStep, hs] at h
    · refine ⟨s, rfl, hs, ?_⟩
      simpa [optStep, hs] using h

/-- Every `HTTPException` raised after the vertical step has status 404 and
a nonempty detail. -/
theorem pipelineAfterVertical_err (fm : FormatRegistry) (q : EDRQuery) (r : Request)
    (ds0 : Dataset) (st : Nat) (d : String)
    (h : pipelineAfterVertical fm q r ds0 = .error (.http st d)) : st = 404 ∧ d ≠ "" := by
  unfold pipelineAfterVertical at h
  match h1 : optStep ds0 q.datetime selectDatetimeStep with
  | .error e =>
    rw [h1] at h
    simp only [Except.error.injEq] at h
    subst h
    obtain ⟨s, _, _, hstep⟩ := optStep_err _ _ _ _ h1
    exact selectDatetimeStep_err _ _ _ _ hstep
  | .ok ds1 =>
    simp only [h1] at h
    match h2 : optStep ds1 q.parameters selectParamsStep with
    | .error e =>
      simp only [h2] at h
      simp only [Except.error.injEq] at h
      subst h
      obtain ⟨s, _, _, hstep⟩ := optStep_err _ _ _ _ h2
      exact selectParamsStep_err _ _ _ _ hstep
    | .ok ds2 =>
      simp only [h2] at h
      match h3 : selectExtraStep ds2 r with
      | .error e =>
        simp only [h3] at h
        simp only [Except.error.injEq] at h
        subst h
        exact selectExtraStep_err _ _ _ _ h3
      | .ok ds3 =>
        simp only [h3] at h
        match h4 : resolveFormat fm q.format with
        | .error e =>
          simp only [h4] at h
          simp only [Except.error.injEq] at h
          subst h
          exact resolveFormat_err _ _ _ _ h4
        | .ok fmtFn => simp [h4] at h

/-- Every `HTTPException` raised by the whole selection pipeline has status
404 and a nonempty detail. -/
theorem selectPipeline_err (fm : FormatRegistry) (q : EDRQuery) (r : Request)
    (dataset : Dataset) (st : Nat) (d : String)
    (h : selectPipeline fm q r dataset = .error (.http st d)) : st = 404 ∧ d ≠ "" := by
  unfold selectPipeline at h
  match hxy : cfSelXY dataset q.point.1 q.point.2 with
  | .error (.keyError k) =>
    rw [hxy] at h
    simp only [Except.error.injEq, PyErr.http.injEq] at h
    exact ⟨h.1.symm, by rw [← h.2]; decide⟩
  | .error (.valueError m) => rw [hxy] at h; simp [uncaughtOf] at h
  | .ok ds =>
    simp only [hxy] at h
    match hz : q.z with
    | none =>
      simp only [hz] at h
      exact pipelineAfterVertical_err _ _ _ _ _ _ h
    | some z =>
      simp only [hz] at h
      by_cases hz0 : z = 0
      · simp only [if_pos hz0] at h
        exact pipelineAfterVertical_err _ _ _ _ _ _ h
      · simp only [if_neg hz0] at h
        match hcz : cfSelZ dataset z with
        | .error (.keyError k) => simp [hcz, uncaughtOf] at h
        | .error (.valueError m) => simp [hcz, uncaughtOf] at h
        | .ok dz =>
          simp only [hcz] at h
          exact pipelineAfterVertical_err _ _ _ _ _ _ h

/-- C5: the cache key is computed purely from the four components (route
name, request identity, Query value, dataset fingerprint), the fingerprint
being a structural hash: keys differing in route name or in fingerprint
differ, keys agreeing in all four components agree, and structurally equal
datasets have identical fingerprints. -/
theorem cache_key_components :
    (∀ rt1 rt2 r1 r2 q1 q2 d1 d2, rt1 ≠ rt2 →
        cache_key_from_request rt1 r1 q1 d1 ≠ cache_key_from_request rt2 r2 q2 d2)
    ∧ (∀ rt1 rt2 r1 r2 q1 q2 d1 d2, dask_base_tokenize d1 ≠ dask_base_tokenize d2 →
        cache_key_from_request rt1 r1 q1 d1 ≠ cache_key_from_request rt2 r2 q2 d2)
    ∧ (∀ rt r1 r2 q d1 d2, r1.rid = r2.rid → dask_base_tokenize d1 = dask_base_tokenize d2 →
        cache_key_from_request rt r1 q d1 = cache_key_from_request rt r2 q d2)
    ∧ (∀ d1 d2 : Dataset, d1 = d2 → dask_base_tokenize d1 = dask_base_tokenize d2) := by
  refine ⟨?_, ?_, ?_, ?_⟩
  · intro rt1 rt2 r1 r2 q1 q2 d1 d2 hne heq
    exact hne (congrArg CacheKey.route heq)
  · intro rt1 rt2 r1 r2 q1 q2 d1 d2 hne heq
    exact hne (congrArg CacheKey.datasetToken heq)
  · intro rt r1 r2 q d1 d2 h1 h2
    simp [cache_key_from_request, h1, h2]
  · intro d1 d2 h
    rw [h]

/-- Witness for the cache-key theorem at concrete inputs. -/
theorem cache_key_components_w :
    cache_key_from_request "position" req0 qBasic dsFix
        ≠ cache_key_from_request "area" req0 qBasic dsFix
      ∧ cache_key_from_request "position" req0 qBasic dsFix
        = cache_key_from_request "position" req0 qBasic dsFix :=
  ⟨cache_key_components.1 "position" "area" req0 req0 qBasic qBasic dsFix dsFix (by decide),
   cache_key_components.2.2.1 "position" req0 req0 qBasic dsFix dsFix rfl rfl⟩

/-- C6: a cache hit returns the stored response unchanged with no
formatting work, and after any successful request the same request served
from the resulting cache returns the byte-identical response without
invoking a formatter and without touching the cache. -/
theorem cache_hit_bypasses_formatting :
    (∀ fm sd fd r q ds c resp,
        Cache.get c (cache_key_from_request "position" r q ds) = some resp →
        get_position fm sd fd r q ds c = ⟨.ok resp, c, 0, 0⟩)
    ∧ (∀ fm sd fd sd' fd' r q ds c resp,
        (get_position fm sd fd r q ds c).result = .ok resp →
        get_position fm sd' fd' r q ds (get_position fm sd fd r q ds c).cache
          = ⟨.ok resp, (get_position fm sd fd r q ds c).cache, 0, 0⟩) := by
  constructor
  · intro fm sd fd r q ds c resp hhit
    simp [get_position, hhit]
  · intro fm sd fd sd' fd' r q ds c resp h1
    match hget : Cache.get c (cache_key_from_request "position" r q ds) with
    | some r0 =>
      have hrun : get_position fm sd fd r q ds c = ⟨.ok r0, c, 0, 0⟩ := by
        simp [get_position, hget]
      rw [hrun] at h1 ⊢
      simp only [Except.ok.injEq] at h1
      subst h1
      simp [get_position, hget]
    | none =>
      match hp : selectPipeline fm q r ds with
      | .error e => simp [get_position, hget, hp] at h1
      | .ok (d0, f0) =>
        have hrun : get_position fm sd fd r q ds c =
            ⟨.ok (f0 d0),
              Cache.put c (cache_key_from_request "position" r q ds) (f0 d0) sd
                (f0 d0).contentLength, 1, sd + fd⟩ := by
          simp [get_position, hget, hp]
        rw [hrun] at h1 ⊢
        simp only [Except.ok.injEq] at h1
        subst h1
        simp [get_position, Cache.get_put]

/-- Witness for the cache-hit theorem: populate, then hit. -/
theorem cache_hit_bypasses_formatting_w :
    get_position [] 3 1 req0 qBasic dsFix (get_position [] 7 2 req0 qBasic dsFix []).cache
      = ⟨.ok (to_cf_covjson dsFix), (get_position [] 7 2 req0 qBasic dsFix []).cache, 0, 0⟩ :=
  cache_hit_bypasses_formatting.2 [] 7 2 3 1 req0 qBasic dsFix [] (to_cf_covjson dsFix) rfl

/-- C4 counterexample: with a selection block taking 0 time units and the
formatter invocation taking 1, the recorded cost is 0 while the elapsed
time of the full selection-plus-formatting path is 1 — the formatter
invocation sits outside the `with CostTimer()` block, so `ct.time`
excludes it. -/
theorem cost_excludes_formatter_time :
    (Cache.lookup (get_position [] 0 1 req0 qBasic dsFix []).cache
        (cache_key_from_request "position" req0 qBasic dsFix)).map CacheEntry.cost = some 0
      ∧ (get_position [] 0 1 req0 qBasic dsFix []).elapsed = 1
      ∧ (0 : Nat) ≠ 1 := ⟨rfl, rfl, by decide⟩

/-- C4 (amended): on a cache miss that succeeds, the recorded cost is the
elapsed time of the timed selection block — which excludes the formatter
invocation, so the handler's total elapsed time is that cost plus the
formatter time — and the recorded size is the response's declared
content-length (which the default formatter sets to the byte length of its
serialized body). -/
theorem cost_and_size_recorded :
    (∀ fm sd fd r q ds c resp,
        Cache.get c (cache_key_from_request "position" r q ds) = none →
        (get_position fm sd fd r q ds c).result = .ok resp →
        Cache.lookup (get_position fm sd fd r q ds c).cache
            (cache_key_from_request "position" r q ds) = some ⟨resp, sd, resp.contentLength⟩
          ∧ (get_position fm sd fd r q ds c).elapsed = sd + fd)
    ∧ (∀ d, (to_cf_covjson d).contentLength = (to_cf_covjson d).body.utf8ByteSize) := by
  constructor
  · intro fm sd fd r q ds c resp hmiss hok
    match hp : selectPipeline fm q r ds with
    | .error e => simp [get_position, hmiss, hp] at hok
    | .ok (d0, f0) =>
      simp only [get_position, hmiss, hp] at hok ⊢
      simp only [Except.ok.injEq] at hok
      subst hok
      simp [Cache.put, Cache.lookup]
  · intro d
    rfl

/-- Witness for the cost/size theorem at concrete inputs. -/
theorem cost_and_size_recorded_w :
    Cache.lookup (get_position [] 7 1 req0 qBasic dsFix []).cache
        (cache_key_from_request "position" req0 qBasic dsFix)
      = some ⟨to_cf_covjson dsFix, 7, (to_cf_covjson dsFix).contentLength⟩
      ∧ (get_position [] 7 1 req0 qBasic dsFix []).elapsed = 7 + 1 :=
  cost_and_size_recorded.1 [] 7 1 req0 qBasic dsFix [] (to_cf_covjson dsFix) rfl rfl

/-- C7 counterexample: the request `level=3&depth=10/20` against `dsFix`
(level labels 2 and 4) is an invalid-dimension-value failure of the
taxonomy — a single-token value that fails to resolve once the range value
switches the combined call to exact mode — yet it escapes as an uncaught
`KeyError`, not as a client-facing 404 `HTTPException`; the cache is
nevertheless unchanged. -/
theorem exact_mode_resolve_failure_not_404 :
    (get_position [] 0 1 reqLevel3 qBasic dsFix []).result
        = .error (.uncaught "KeyError: 3")
      ∧ PyErr.is404 (.uncaught "KeyError: 3") = false
      ∧ (get_position [] 0 1 reqLevel3 qBasic dsFix []).cache = [] := ⟨by decide, rfl, rfl⟩

/-- C7 (amended): every failing request leaves the cache unchanged and
invokes no formatter, and every `HTTPException` the handler itself raises
(convention-mismatch, invalid-datetime, invalid-variable, too-many-values,
invalid-format) carries status 404 and a nonempty human-readable detail;
however, lookup failures in the vertical, temporal-nearest and
extra-dimension selection calls propagate as uncaught engine errors rather
than 404 client errors. -/
theorem errors_are_404_and_cache_unchanged :
    (∀ fm sd fd r q ds c e, (get_position fm sd fd r q ds c).result = .error e →
        (get_position fm sd fd r q ds c).cache = c
          ∧ (get_position fm sd fd r q ds c).fmtCalls = 0)
    ∧ (∀ fm q r ds st d, selectPipeline fm q r ds = .error (.http st d) →
        st = 404 ∧ d ≠ "") := by
  constructor
  · intro fm sd fd r q ds c e h
    match hget : Cache.get c (cache_key_from_request "position" r q ds) with
    | some r0 => simp [get_position, hget] at h
    | none =>
      match hp : selectPipeline fm q r ds with
      | .error e0 => simp [get_position, hget, hp]
      | .ok (d0, f0) => simp [get_position, hget, hp] at h
  · intro fm q r ds st d h
    exact selectPipeline_err _ _ _ _ _ _ h

/-- Witness for the amended error theorem: a malformed datetime leaves the
cache unchanged, and the pipeline error it raises is a 404 with a nonempty
detail. -/
theorem errors_are_404_and_cache_unchanged_w :
    ((get_position [] 0 1 req0 { qBasic with datetime := some "a/b/c" } dsFix []).cache = []
      ∧ (get_position [] 0 1 req0 { qBasic with datetime := some "a/b/c" } dsFix []).fmtCalls = 0)
    ∧ ((404 : Nat) = 404 ∧ "Invalid datetimes submitted" ≠ "") :=
  ⟨errors_are_404_and_cache_unchanged.1 [] 0 1 req0 { qBasic with datetime := some "a/b/c" }
      dsFix [] (.http 404 "Invalid datetimes submitted") (by decide),
   errors_are_404_and_cache_unchanged.2 [] { qBasic with datetime := some "a/b/c" } req0 dsFix
      404 "Invalid datetimes submitted" rfl⟩

/-- If every extra value has at most two tokens, the extra-parameter loop
raises nothing. -/
theorem processExtraParams_ok_of_le_two :
    ∀ qp : List (String × String), (∀ p ∈ qp, (pySplit '/' p.2).length ≤ 2) →
      ∃ args m, processExtraParams qp = .ok (args, m)
  | [], _ => ⟨[], some "nearest", rfl⟩
  | (k, v) :: rest, h => by
    have hv := h (k, v) (by simp)
    have hrest : ∀ p ∈ rest, (pySplit '/' p.2).length ≤ 2 :=
      fun p hp => h p (List.mem_cons_of_mem _ hp)
    obtain ⟨args, m, hm⟩ := processExtraParams_ok_of_le_two rest hrest
    match hsp : pySplit '/' v with
    | [] => exact absurd hsp (pySplit_ne_nil '/' v)
    | [x] => exact ⟨(k, .scalar v) :: args, m, by simp [processExtraParams, hsp, hm]⟩
    | [a, b] => exact ⟨(k, .range a b) :: args, none, by simp [processExtraParams, hsp, hm]⟩
    | a :: b :: c :: t => rw [hsp] at hv; simp at hv

/-- When every extra value is a single token, the loop leaves every value
as a raw scalar and the combined call keeps `method="nearest"`. -/
theorem processExtraParams_all_single :
    ∀ qp : List (String × String), (∀ p ∈ qp, (pySplit '/' p.2).length = 1) →
      processExtraParams qp = .ok (qp.map (fun p => (p.1, SelArg.scalar p.2)), some "nearest")
  | [], _ => rfl
  | (k, v) :: rest, h => by
    have hv := h (k, v) (by simp)
    obtain ⟨x, hx⟩ := List.length_eq_one.mp hv
    have hrest := processExtraParams_all_single rest (fun p hp => h p (List.mem_cons_of_mem _ hp))
    simp [processExtraParams, hx, hrest]

/-- As soon as one extra value is a two-token pair, the whole combined call
switches to `method=None`. -/
theorem processExtraParams_any_range :
    ∀ qp : List (String × String), (∀ p ∈ qp, (pySplit '/' p.2).length ≤ 2) →
      (∃ p ∈ qp, (pySplit '/' p.2).length = 2) →
      ∃ args, processExtraParams qp = .ok (args, none)
  | [], _, hex => by simp at hex
  | (k, v) :: rest, h, hex => by
    have hv := h (k, v) (by simp)
    have hrest : ∀ p ∈ rest, (pySplit '/' p.2).length ≤ 2 :=
      fun p hp => h p (List.mem_cons_of_mem _ hp)
    match hsp : pySplit '/' v with
    | [] => exact absurd hsp (pySplit_ne_nil '/' v)
    | [a, b] =>
      obtain ⟨args, m, hm⟩ := processExtraParams_ok_of_le_two rest hrest
      exact ⟨(k, .range a b) :: args, by simp [processExtraParams, hsp, hm]⟩
    | [x] =>
      have hex' : ∃ p ∈ rest, (pySplit '/' p.2).length = 2 := by
        obtain ⟨p, hp, hlen⟩ := hex
        rcases List.mem_cons.mp hp with heq | hmem
        · subst heq; rw [hsp] at hlen; simp at hlen
        · exact ⟨p, hmem, hlen⟩
      obtain ⟨args, hargs⟩ := processExtraParams_any_range rest hrest hex'
      exact ⟨(k, .scalar v) :: args, by simp [processExtraParams, hsp, hargs]⟩
    | a :: b :: c :: t => rw [hsp] at hv; simp at hv

/-- A value with three or more tokens aborts the loop with the
too-many-values client error naming the offending key. -/
theorem processExtraParams_too_many :
    ∀ qp : List (String × String), (∃ p ∈ qp, 3 ≤ (pySplit '/' p.2).length) →
      ∃ p, p ∈ qp ∧ 3 ≤ (pySplit '/' p.2).length ∧
        processExtraParams qp = .error (.http 404 ("Too many values for selecting " ++ p.1))
  | [], hex => by simp at hex
  | (k, v) :: rest, hex => by
    match hsp : pySplit '/' v with
    | [] => exact absurd hsp (pySplit_ne_nil '/' v)
    | a :: b :: c :: t =>
      refine ⟨(k, v), by simp, ?_, by simp [processExtraParams, hsp]⟩
      rw [hsp]
      simp
    | [x] =>
      have hex' : ∃ p ∈ rest, 3 ≤ (pySplit '/' p.2).length := by
        obtain ⟨p, hp, hlen⟩ := hex
        rcases List.mem_cons.mp hp with heq | hmem
        · subst heq; rw [hsp] at hlen; simp at hlen
        · exact ⟨p, hmem, hlen⟩
      obtain ⟨p, hp, hlen, herr⟩ := processExtraParams_too_many rest hex'
      exact ⟨p, List.mem_cons_of_mem _ hp, hlen, by simp [processExtraParams, hsp, herr]⟩
    | [a, b] =>
      have hex' : ∃ p ∈ rest, 3 ≤ (pySplit '/' p.2).length := by
        obtain ⟨p, hp, hlen⟩ := hex
        rcases List.mem_cons.mp hp with heq | hmem
        · subst heq; rw [hsp] at hlen; simp at hlen
        · exact ⟨p, hmem, hlen⟩
      obtain ⟨p, hp, hlen, herr⟩ := processExtraParams_too_many rest hex'
      exact ⟨p, List.mem_cons_of_mem _ hp, hlen, by simp [processExtraParams, hsp, herr]⟩

/-- C1: the extra (non-reserved) parameters are applied in one single
combined selection call — all single-token values keep `method="nearest"`;
one two-token value switches the whole call to exact/range mode; three or
more tokens raise the too-many-values client error naming the key; and in
exact mode a single-token value resolves exactly or the call fails. -/
theorem extra_params_single_combined_call :
    (∀ qp, (∀ p ∈ qp, (pySplit '/' p.2).length = 1) →
        processExtraParams qp = .ok (qp.map (fun p => (p.1, SelArg.scalar p.2)), some "nearest"))
    ∧ (∀ qp, (∀ p ∈ qp, (pySplit '/' p.2).length ≤ 2) →
        (∃ p ∈ qp, (pySplit '/' p.2).length = 2) →
        ∃ args, processExtraParams qp = .ok (args, none))
    ∧ (∀ qp, (∃ p ∈ qp, 3 ≤ (pySplit '/' p.2).length) →
        ∃ p, p ∈ qp ∧ 3 ≤ (pySplit '/' p.2).length ∧
          processExtraParams qp = .error (.http 404 ("Too many values for selecting " ++ p.1)))
    ∧ (∀ ds r args method, processExtraParams (extraQueryParams r) = .ok (args, method) →
        selectExtraStep ds r = match selExtra ds args method with
          | .ok d => .ok d
          | .error e => .error (uncaughtOf e))
    ∧ (∀ xs v i, parseIntStr v = some i → xs.contains i = true →
        selDim xs (.scalar v) none = .ok [i])
    ∧ (∀ xs v i, parseIntStr v = some i → xs.contains i = false →
        selDim xs (.scalar v) none = .error (.keyError v)) := by
  refine ⟨processExtraParams_all_single, processExtraParams_any_range,
    processExtraParams_too_many, ?_, ?_, ?_⟩
  · intro ds r args method h
    simp [selectExtraStep, h]
  · intro xs v i h1 h2
    have hmem : i ∈ xs := by simpa using h2
    simp [selDim, h1, hmem]
  · intro xs v i h1 h2
    have hmem : i ∉ xs := by simpa using h2
    simp [selDim, h1, hmem]

/-- Witness for the extra-parameter theorem at concrete inputs. -/
theorem extra_params_single_combined_call_w :
    processExtraParams [("level", "3")] = .ok ([("level", SelArg.scalar "3")], some "nearest")
      ∧ (∃ args, processExtraParams [("level", "3"), ("depth", "10/20")] = .ok (args, none))
      ∧ selDim [2, 4] (.scalar "3") none = .error (.keyError "3") :=
  ⟨extra_params_single_combined_call.1 [("level", "3")] (by decide),
   extra_params_single_combined_call.2.1 [("level", "3"), ("depth", "10/20")]
     (by decide) (by decide),
   extra_params_single_combined_call.2.2.2.2.2 [2, 4] "3" 3 (by decide) (by decide)⟩

/-- C2 counterexample: a datetime with two separators is rejected with the
fixed detail "Invalid datetimes submitted" — the offending string
(`"a/b/c"`) is not surfaced anywhere in that message. -/
theorem datetime_offending_string_not_surfaced :
    selectDatetimeStep dsFix "a/b/c" = .error (.http 404 "Invalid datetimes submitted")
      ∧ ¬ ("a/b/c".data <:+: "Invalid datetimes submitted".data) := ⟨by decide, by decide⟩

/-- C2 (amended): zero separators select T by nearest match, one separator
selects an inclusive range slice on T, two or more separators raise the
invalid-datetime client error with the fixed message "Invalid datetimes
submitted" (the offending string is not included), and a `ValueError` from
the underlying lookup is rewrapped as an invalid-datetime client error
carrying the original message. -/
theorem datetime_step_semantics :
    (∀ ds s d0, pySplit '/' s = [d0] →
        selectDatetimeStep ds s = mapTimeLookup (cfSelTNearest ds d0))
    ∧ (∀ ds s d0 d1, pySplit '/' s = [d0, d1] →
        selectDatetimeStep ds s = mapTimeLookup (cfSelTSlice ds d0 d1))
    ∧ (∀ ds s, 3 ≤ (pySplit '/' s).length →
        selectDatetimeStep ds s = .error (.http 404 "Invalid datetimes submitted"))
    ∧ (∀ ds s d0 m, pySplit '/' s = [d0] → cfSelTNearest ds d0 = .error (.valueError m) →
        selectDatetimeStep ds s = .error (.http 404 ("Invalid datetime (" ++ m ++ ")")))
    ∧ (∀ ds s d0 d1 m, pySplit '/' s = [d0, d1] → cfSelTSlice ds d0 d1 = .error (.valueError m) →
        selectDatetimeStep ds s = .error (.http 404 ("Invalid datetime (" ++ m ++ ")")))
    ∧ (∀ ds ts a b lo hi, ds.tAxis = some ts →
        parseIntStr a = some lo → parseIntStr b = some hi →
        cfSelTSlice ds a b = .ok { ds with tAxis := some (ts.filter (fun v => lo ≤ v && v ≤ hi)) }) := by
  refine ⟨?_, ?_, ?_, ?_, ?_, ?_⟩
  · intro ds s d0 h
    simp [selectDatetimeStep, h]
  · intro ds s d0 d1 h
    simp [selectDatetimeStep, h]
  · intro ds s h
    match hsp : pySplit '/' s with
    | [] => exact absurd hsp (pySplit_ne_nil '/' s)
    | [x] => rw [hsp] at h; simp at h
    | [a, b] => rw [hsp] at h; simp at h
    | a :: b :: c :: t => simp [selectDatetimeStep, hsp]
  · intro ds s d0 m h1 h2
    simp [selectDatetimeStep, h1, h2, mapTimeLookup]
  · intro ds s d0 d1 m h1 h2
    simp [selectDatetimeStep, h1, h2, mapTimeLookup]
  · intro ds ts a b lo hi h1 h2 h3
    simp [cfSelTSlice, h1, h2, h3]

/-- Witness for the datetime theorem at concrete inputs. -/
theorem datetime_step_semantics_w :
    selectDatetimeStep dsFix "7" = mapTimeLookup (cfSelTNearest dsFix "7")
      ∧ selectDatetimeStep dsFix "5/20" = mapTimeLookup (cfSelTSlice dsFix "5" "20")
      ∧ selectDatetimeStep dsFix "x" = .error (.http 404 ("Invalid datetime (" ++ "could not parse x" ++ ")")) :=
  ⟨datetime_step_semantics.1 dsFix "7" "7" (by decide),
   datetime_step_semantics.2.1 dsFix "5/20" "5" "20" (by decide),
   datetime_step_semantics.2.2.2.1 dsFix "x" "x" "could not parse x" (by decide) (by decide)⟩

/-- C3: when z is present (truthy), the vertical selection is issued
against the original dataset handle — not the spatially-reduced one — and
everything after it chains from that vertical selection's result. -/
theorem vertical_selects_from_original_dataset
    (fm : FormatRegistry) (q : EDRQuery) (r : Request) (ds ds1 : Dataset) (z : Int)
    (hz : q.z = some z) (hz0 : z ≠ 0) (_hdt : q.datetime = none)
    (hxy : cfSelXY ds q.point.1 q.point.2 = .ok ds1) :
    selectPipeline fm q r ds =
      match cfSelZ ds z with
      | .error e => .error (uncaughtOf e)
      | .ok dz => pipelineAfterVertical fm q r dz := by
  unfold selectPipeline
  simp only [hxy, hz, if_neg hz0]

/-- A query asking for vertical level 5. -/
def qZ : EDRQuery :=
  { point := (0, 0), z := some 5, datetime := none, parameters := none, format := none }

/-- Witness for the vertical-selection theorem at concrete inputs. -/
theorem vertical_selects_from_original_dataset_w :
    selectPipeline [] qZ req0 dsFix =
      match cfSelZ dsFix 5 with
      | .error e => .error (uncaughtOf e)
      | .ok dz => pipelineAfterVertical [] qZ req0 dz :=
  vertical_selects_from_original_dataset [] qZ req0 dsFix dsFix 5 rfl (by decide) rfl (by decide)

/-- C8: a present `parameters` field is split on commas and the dataset is
reduced to exactly that variable set; a missing variable raises the
invalid-variable client error naming the missing key. -/
theorem parameters_subsetting :
    (∀ ds s, (∀ n ∈ pySplit ',' s, n ∈ ds.vars) →
        selectParamsStep ds s = .ok { ds with vars := pySplit ',' s })
    ∧ (∀ ds s n, (pySplit ',' s).find? (fun m => !ds.vars.contains m) = some n →
        selectParamsStep ds s = .error (.http 404 ("Invalid variable: '" ++ n ++ "'"))
          ∧ n ∈ pySplit ',' s ∧ n ∉ ds.vars) := by
  constructor
  · intro ds s h
    have hnone : (pySplit ',' s).find? (fun n => !ds.vars.contains n) = none := by
      rw [List.find?_eq_none]
      intro x hx
      simp [h x hx]
    unfold selectParamsStep cfGetVars
    rw [hnone]
  · intro ds s n h
    have hmem := List.mem_of_find?_eq_some h
    have hprop := List.find?_some h
    simp at hprop
    refine ⟨?_, hmem, hprop⟩
    unfold selectParamsStep cfGetVars
    rw [h]

/-- Witness for the variable-subsetting theorem at concrete inputs. -/
theorem parameters_subsetting_w :
    selectParamsStep dsFix "temp,salinity" = .ok { dsFix with vars := ["temp", "salinity"] }
      ∧ selectParamsStep dsFix "temp,salt" = .error (.http 404 "Invalid variable: 'salt'") :=
  ⟨parameters_subsetting.1 dsFix "temp,salinity" (by decide),
   (parameters_subsetting.2 dsFix "temp,salt" "salt" (by decide)).1⟩

/-- C9: a present format name absent from the registry raises the
invalid-format client error telling the caller to get `./formats` for the
valid formats; an absent format selects the fixed default CoverageJSON
encoder; and a successful cache-miss request invokes exactly one
formatter. -/
theorem format_resolution :
    (∀ (fm : FormatRegistry) s, s ≠ "" → List.find? (fun p => p.1 = s) fm = none →
        resolveFormat fm (some s) = .error (.http 404
          (s ++ " is not a valid format for EDR position queries. " ++
            "Get `./formats` for valid formats")))
    ∧ (∀ fm : FormatRegistry, resolveFormat fm none = .ok to_cf_covjson)
    ∧ (∀ fm sd fd r q ds c resp,
        Cache.get c (cache_key_from_request "position" r q ds) = none →
        (get_position fm sd fd r q ds c).result = .ok resp →
        (get_position fm sd fd r q ds c).fmtCalls = 1) := by
  refine ⟨?_, ?_, ?_⟩
  · intro fm s hs hf
    simp [resolveFormat, hs, hf]
  · intro fm
    rfl
  · intro fm sd fd r q ds c resp hmiss hok
    match hp : selectPipeline fm q r ds with
    | .error e => simp [get_position, hmiss, hp] at hok
    | .ok (d0, f0) => simp [get_position, hmiss, hp]

/-- Witness for the format-resolution theorem at concrete inputs. -/
theorem format_resolution_w :
    resolveFormat [] (some "bogus") = .error (.http 404
        ("bogus" ++ " is not a valid format for EDR position queries. " ++
          "Get `./formats` for valid formats"))
      ∧ (get_position [] 0 1 req0 qBasic dsFix []).fmtCalls = 1 :=
  ⟨format_resolution.1 [] "bogus" (by decide) rfl,
   format_resolution.2.2 [] 0 1 req0 qBasic dsFix [] (to_cf_covjson dsFix) rfl rfl⟩

/-- The post-vertical pipeline reads only the datetime, parameters and
format fields of the query, never the point. -/
theorem pipelineAfterVertical_point_irrel (fm : FormatRegistry) (r : Request) (ds : Dataset)
    (p1 p2 : Int × Int) (z1 z2 : Option Int) (dt par f : Option String) :
    pipelineAfterVertical fm ⟨p1, z1, dt, par, f⟩ r ds
      = pipelineAfterVertical fm ⟨p2, z2, dt, par, f⟩ r ds := rfl

/-- C10: when z is present and non-zero and both X/Y point selections
succeed, the whole selection result — in every branch, whatever the
datetime, parameters, format and extra parameters — is independent of the
point coordinates, because the vertical selection restarts from the
original dataset handle. -/
theorem response_independent_of_point_when_z
    (fm : FormatRegistry) (r : Request) (ds : Dataset) (p1 p2 : Int × Int) (z : Int)
    (dt par f : Option String) (hz0 : z ≠ 0)
    (h1 : ∃ d, cfSelXY ds p1.1 p1.2 = .ok d)
    (h2 : ∃ d, cfSelXY ds p2.1 p2.2 = .ok d) :
    selectPipeline fm ⟨p1, some z, dt, par, f⟩ r ds
      = selectPipeline fm ⟨p2, some z, dt, par, f⟩ r ds := by
  obtain ⟨d1, h1⟩ := h1
  obtain ⟨d2, h2⟩ := h2
  unfold selectPipeline
  simp only [h1, h2, if_neg hz0]
  cases hcz : cfSelZ ds z with
  | error e => rfl
  | ok dz => exact pipelineAfterVertical_point_irrel fm r dz p1 p2 (some z) (some z) dt par f

/-- Witness for the point-independence theorem at concrete inputs. -/
theorem response_independent_of_point_when_z_w :
    selectPipeline [] ⟨(0, 0), some 5, none, none, none⟩ req0 dsFix
      = selectPipeline [] ⟨(7, 9), some 5, none, none, none⟩ req0 dsFix :=
  response_independent_of_point_when_z [] req0 dsFix (0, 0) (7, 9) 5 none none none
    (by decide) ⟨dsFix, by decide⟩ ⟨dsFix, by decide⟩

end EDR
